import Mathlib

/-!
Shallow embedding of the kanemono bookkeeping backend (FastAPI/SQLModel).

Database tables are modelled as Lean lists in row-insertion order; a SQL
query without an ORDER BY clause is read in that stored order, and
ORDER BY is an explicit stable insertion sort.  Primary-key lookup
(session.get) and filtered first() queries become List.find?.  The
fixed-point Decimal(15,2) amounts are modelled as integer cents (Int).
HTTPException raise sites become constructors of ApiError; a service
function that mutates the session returns Except ApiError of the new
table state, so an error leaves every table at its prior value.
created_at and updated_at wall-clock metadata are outside the model.
-/

namespace Kanemono

/-- One constructor per HTTPException raise site reached by the modelled
operations, named after the §7 error kinds of the specification. -/
inductive ApiError where
  | duplicateCode
  | parentNotFound
  | selfParent
  | cycleDetected
  | notFound
  | forbidden
  | hasChildren
  | typeMismatch
  | duplicateName
  | unbalancedTransaction
  | invalidAccountReference
  | inactiveAccount
  | tooFewLines
  deriving DecidableEq, Repr

/-! ## Account model (src/backend/app/models/account.py) -/

inductive AccountType where
  | asset | liability | equity | revenue | expense
  deriving DecidableEq, Repr

inductive NormalBalance where
  | debit | credit
  deriving DecidableEq, Repr

/-- Row of the accounts table (model Account). -/
structure Account where
  id : Nat
  user_id : Nat
  code : String
  name : String
  type : AccountType
  subtype : Option String
  normal_balance : NormalBalance
  description : Option String
  is_active : Bool
  parent_id : Option Nat
  balance : Int
  deriving DecidableEq, Repr

/-- Schema AccountCreate: the request fields of a create call
(balance is not among them; the table default is 0.00). -/
structure AccountCreate where
  code : String
  name : String
  type : AccountType
  subtype : Option String
  normal_balance : NormalBalance
  description : Option String
  is_active : Bool
  parent_id : Option Nat
  deriving DecidableEq, Repr

/-- Schema AccountUpdate with pydantic exclude_unset semantics: an outer
none means the field was absent from the request.  For the nullable
columns subtype, description and parent_id the inner Option is the
stored value, so an explicit null (which clears the column) is
representable; for the non-nullable columns an explicit null would
violate the column type and is outside the model.  balance is not a
field of this schema in the source. -/
structure AccountUpdate where
  code : Option String := none
  name : Option String := none
  type : Option AccountType := none
  subtype : Option (Option String) := none
  normal_balance : Option NormalBalance := none
  description : Option (Option String) := none
  is_active : Option Bool := none
  parent_id : Option (Option Nat) := none
  deriving DecidableEq, Repr

/-- Transaction line row (model TransactionLine); only the fields the
modelled operations read. -/
inductive LineType where
  | debit | credit
  deriving DecidableEq, Repr

structure TransactionLine where
  id : Nat
  transaction_id : Nat
  account_id : Nat
  type : LineType
  amount : Int
  deriving DecidableEq, Repr

/-! ## AccountService (src/backend/app/services/account_service.py) -/

/-- get_account_by_id: select Account where id and user_id match, first(). -/
def get_account_by_id (accounts : List Account) (account_id user_id : Nat) :
    Option Account :=
  accounts.find? (fun a => a.id == account_id && a.user_id == user_id)

/-- get_account_by_code: select Account where code and user_id match, first(). -/
def get_account_by_code (accounts : List Account) (code : String) (user_id : Nat) :
    Option Account :=
  accounts.find? (fun a => a.code == code && a.user_id == user_id)

/-- The row inserted by create_account: the request fields plus the
fresh primary key and the table default balance = 0.00. -/
def createdAccountRow (account_data : AccountCreate) (user_id new_id : Nat) :
    Account where
  id := new_id
  user_id := user_id
  code := account_data.code
  name := account_data.name
  type := account_data.type
  subtype := account_data.subtype
  normal_balance := account_data.normal_balance
  description := account_data.description
  is_active := account_data.is_active
  parent_id := account_data.parent_id
  balance := 0

/-- create_account.  new_id stands for the fresh primary key the database
assigns on insert. -/
def create_account (accounts : List Account) (account_data : AccountCreate)
    (user_id new_id : Nat) : Except ApiError (List Account) :=
  if (get_account_by_code accounts account_data.code user_id).isSome then
    .error .duplicateCode
  else
    match account_data.parent_id with
    | some p =>
      if (get_account_by_id accounts p user_id).isNone then
        .error .parentNotFound
      else
        .ok (accounts ++ [createdAccountRow account_data user_id new_id])
    | none =>
        .ok (accounts ++ [createdAccountRow account_data user_id new_id])

/-- The setattr loop of update_account over model_dump(exclude_unset):
every present field overwrites the stored one.  id, user_id and balance
are not fields of AccountUpdate and therefore keep their prior values. -/
def applyAccountUpdate (a : Account) (u : AccountUpdate) : Account :=
  { a with
    code := u.code.getD a.code,
    name := u.name.getD a.name,
    type := u.type.getD a.type,
    subtype := u.subtype.getD a.subtype,
    normal_balance := u.normal_balance.getD a.normal_balance,
    description := u.description.getD a.description,
    is_active := u.is_active.getD a.is_active,
    parent_id := u.parent_id.getD a.parent_id }

/-- The Python truthiness test `if account_data.code and
account_data.code != account.code`: None and the empty string are falsy. -/
def codeConflict (accounts : List Account) (a : Account) (u : AccountUpdate)
    (user_id : Nat) : Bool :=
  match u.code with
  | some c => !(c == "") && !(c == a.code)
      && (get_account_by_code accounts c user_id).isSome
  | none => false

/-- update_account.  The parent validation runs only when the request
carries a non-null parent_id different from the stored one; it rejects
parent = self and an unresolved parent, and performs no ancestor walk. -/
def update_account (accounts : List Account) (account_id : Nat)
    (account_data : AccountUpdate) (user_id : Nat) :
    Except ApiError (List Account) :=
  match get_account_by_id accounts account_id user_id with
  | none => .error .notFound
  | some account =>
    if codeConflict accounts account account_data user_id then
      .error .duplicateCode
    else
      let store :=
        accounts.map (fun a =>
          if a.id == account.id then applyAccountUpdate a account_data else a)
      match account_data.parent_id with
      | some (some p) =>
        if some p ≠ account.parent_id then
          if p == account.id then .error .selfParent
          else if (get_account_by_id accounts p user_id).isNone then
            .error .parentNotFound
          else .ok store
        else .ok store
      | _ => .ok store

/-- delete_account.  The children query is not user-filtered in the
source.  The transaction-lines check is commented out in the source
behind a TODO, so tx_lines is received (the session can read that
table) but never consulted. -/
def delete_account (accounts : List Account) (tx_lines : List TransactionLine)
    (account_id user_id : Nat) : Except ApiError (List Account) :=
  match get_account_by_id accounts account_id user_id with
  | none => .error .notFound
  | some _ =>
    if (accounts.find? (fun a => a.parent_id == some account_id)).isSome then
      .error .hasChildren
    else
      .ok (accounts.filter (fun a => a.id ≠ account_id))

/-! ## ORDER BY: a stable insertion sort on a String key -/

/-- Byte-wise text order on character lists. -/
def charListLe : List Char → List Char → Bool
  | [], _ => true
  | _ :: _, [] => false
  | a :: as, b :: bs =>
    if a.toNat < b.toNat then true
    else if b.toNat < a.toNat then false
    else charListLe as bs

/-- Byte-wise text order on strings, the collation of ORDER BY ASC. -/
def strLe (a b : String) : Bool := charListLe a.data b.data

/-- Insert one row into a key-sorted list, keeping earlier equal keys first
(stable, as SQL ORDER BY on the scanned order). -/
def insertByKey (key : α → String) (x : α) : List α → List α
  | [] => [x]
  | y :: ys =>
    if strLe (key x) (key y) then x :: y :: ys else y :: insertByKey key x ys

/-- Stable insertion sort by a String key, modelling ORDER BY key ASC. -/
def sortByKey (key : α → String) : List α → List α
  | [] => []
  | x :: xs => insertByKey key x (sortByKey key xs)

/-- get_account_tree: select the user's accounts with parent_id NULL,
ordered by code ascending.  Children are not fetched here. -/
def get_account_tree (accounts : List Account) (user_id : Nat) : List Account :=
  sortByKey (fun a => a.code)
    (accounts.filter (fun a => a.user_id == user_id && a.parent_id == none))

/-- The ORM children relationship of an account: the rows whose parent_id
is this account, in stored order (the relationship has no order_by and
no user filter). -/
def accountChildren (accounts : List Account) (a : Account) : List Account :=
  accounts.filter (fun b => b.parent_id == some a.id)

/-- Schema AccountTree of the /tree endpoint response. -/
structure AccountTree where
  id : Nat
  code : String
  name : String
  type : AccountType
  balance : Int
  is_active : Bool
  children : List AccountTree

/-- The AccountTree node the router builds for one account. -/
def accountTreeNode (a : Account) (ch : List AccountTree) : AccountTree where
  id := a.id
  code := a.code
  name := a.name
  type := a.type
  balance := a.balance
  is_active := a.is_active
  children := ch

/-- Collects a list of optional results, failing when any is missing:
the sequential list building of the recursive tree walks. -/
def optionAll : List (Option A) → Option (List A)
  | [] => some []
  | some x :: rest =>
    match optionAll rest with
    | some xs => some (x :: xs)
    | none => none
  | none :: _ => none

/-- The recursive build_tree closure of the /tree router endpoint.  The
Python recursion carries no bound; the fuel argument is the embedding of
general recursion, and get_account_tree_endpoint passes enough fuel that
it is never exhausted on states whose primary keys are distinct. -/
def build_account_tree (accounts : List Account) :
    Nat → Account → Option AccountTree
  | 0, _ => none
  | fuel + 1, a =>
    match optionAll ((accountChildren accounts a).map
        (fun b => build_account_tree accounts fuel b)) with
    | some ch => some (accountTreeNode a ch)
    | none => none

/-- GET /api/accounts/tree: the service returns the sorted roots and the
router nests children through the ORM relationship. -/
def get_account_tree_endpoint (accounts : List Account) (user_id : Nat) :
    Option (List AccountTree) :=
  optionAll ((get_account_tree accounts user_id).map
    (fun a => build_account_tree accounts (accounts.length + 1) a))

/-! ## Category model (src/backend/app/models/category.py) -/

inductive CategoryType where
  | income | expense
  deriving DecidableEq, Repr

/-- Row of the categories table (model Category). -/
structure Category where
  id : Nat
  user_id : Nat
  name : String
  type : CategoryType
  icon : Option String
  color : Option String
  parent_id : Option Nat
  deriving DecidableEq, Repr

/-- Schema CategoryCreate. -/
structure CategoryCreate where
  name : String
  type : CategoryType
  icon : Option String
  color : Option String
  parent_id : Option Nat
  deriving DecidableEq, Repr

/-- Schema CategoryUpdate with exclude_unset semantics, as AccountUpdate. -/
structure CategoryUpdate where
  name : Option String := none
  type : Option CategoryType := none
  icon : Option (Option String) := none
  color : Option (Option String) := none
  parent_id : Option (Option Nat) := none
  deriving DecidableEq, Repr

/-! ## CategoryService (src/backend/app/services/category_service.py) -/

/-- session.get(Category, id): primary-key lookup, not user-scoped. -/
def session_get_category (cats : List Category) (cid : Nat) : Option Category :=
  cats.find? (fun c => c.id == cid)

/-- The row inserted by create_category. -/
def createdCategoryRow (category_data : CategoryCreate) (user_id new_id : Nat) :
    Category where
  id := new_id
  user_id := user_id
  name := category_data.name
  type := category_data.type
  icon := category_data.icon
  color := category_data.color
  parent_id := category_data.parent_id

/-- create_category: parent existence, ownership and same-type checks,
then the duplicate-name check scoped to (user, parent). -/
def create_category (cats : List Category) (category_data : CategoryCreate)
    (user_id new_id : Nat) : Except ApiError (List Category) :=
  let insert : Except ApiError (List Category) :=
    if (cats.find? (fun c => c.user_id == user_id
        && c.name == category_data.name
        && c.parent_id == category_data.parent_id)).isSome then
      .error .duplicateName
    else
      .ok (cats ++ [createdCategoryRow category_data user_id new_id])
  match category_data.parent_id with
  | some p =>
    match session_get_category cats p with
    | none => .error .parentNotFound
    | some parent =>
      if parent.user_id ≠ user_id then .error .forbidden
      else if parent.type ≠ category_data.type then .error .typeMismatch
      else insert
  | none => insert

/-- get_category: primary-key lookup followed by the ownership check
(404 when missing, 403 when owned by another user). -/
def get_category (cats : List Category) (category_id user_id : Nat) :
    Except ApiError Category :=
  match session_get_category cats category_id with
  | none => .error .notFound
  | some category =>
    if category.user_id ≠ user_id then .error .forbidden
    else .ok category

/-- The while loop of _creates_circular_reference: current starts at the
proposed parent, walks parent links for at most max_depth = 100
iterations, and reports true only if it meets category_id. -/
def circularWalk (cats : List Category) (category_id : Nat) :
    Option Nat → Nat → Bool
  | some current, depth + 1 =>
    if current == category_id then true
    else
      match session_get_category cats current with
      | none => false
      | some c => circularWalk cats category_id c.parent_id depth
  | _, _ => false

/-- _creates_circular_reference(session, category_id, new_parent_id). -/
def creates_circular_reference (cats : List Category)
    (category_id new_parent_id : Nat) : Bool :=
  circularWalk cats category_id (some new_parent_id) 100

/-- The setattr loop of update_category over model_dump(exclude_unset). -/
def applyCategoryUpdate (c : Category) (u : CategoryUpdate) : Category :=
  { c with
    name := u.name.getD c.name,
    type := u.type.getD c.type,
    icon := u.icon.getD c.icon,
    color := u.color.getD c.color,
    parent_id := u.parent_id.getD c.parent_id }

/-- update_category: when a non-null parent_id is supplied it runs, in
order, the self-parent check, the circular-reference walk, parent
existence, parent ownership and the type-compatibility check
(update type wins over the stored type); then applies the update. -/
def update_category (cats : List Category) (category_id : Nat)
    (category_update : CategoryUpdate) (user_id : Nat) :
    Except ApiError (List Category) :=
  match get_category cats category_id user_id with
  | .error e => .error e
  | .ok category =>
    let store :=
      cats.map (fun c =>
        if c.id == category.id then applyCategoryUpdate c category_update
        else c)
    match category_update.parent_id with
    | some (some p) =>
      if p == category_id then .error .selfParent
      else if creates_circular_reference cats category_id p then
        .error .cycleDetected
      else
        match session_get_category cats p with
        | none => .error .parentNotFound
        | some parent =>
          if parent.user_id ≠ user_id then .error .forbidden
          else if parent.type ≠ (category_update.type.getD category.type) then
            .error .typeMismatch
          else .ok store
    | _ => .ok store

/-- delete_category: blocked while children exist (the transactions check
is commented out in the source). -/
def delete_category (cats : List Category) (category_id user_id : Nat) :
    Except ApiError (List Category) :=
  match get_category cats category_id user_id with
  | .error e => .error e
  | .ok _ =>
    if (cats.find? (fun c => c.parent_id == some category_id)).isSome then
      .error .hasChildren
    else
      .ok (cats.filter (fun c => c.id ≠ category_id))

/-- get_categories as called by get_category_tree: the user's categories,
optionally filtered by type, ordered by name ascending. -/
def get_categories_for_tree (cats : List Category) (user_id : Nat)
    (ty : Option CategoryType) : List Category :=
  sortByKey (fun c => c.name)
    (cats.filter (fun c => c.user_id == user_id &&
      (match ty with | some t => c.type == t | none => true)))

/-- The dict node _build_tree_node constructs. -/
structure CategoryTreeNode where
  id : Nat
  name : String
  type : CategoryType
  icon : Option String
  color : Option String
  parent_id : Option Nat
  children : List CategoryTreeNode

/-- The node for one category with its recursively built children. -/
def categoryTreeNode (c : Category) (ch : List CategoryTreeNode) :
    CategoryTreeNode where
  id := c.id
  name := c.name
  type := c.type
  icon := c.icon
  color := c.color
  parent_id := c.parent_id
  children := ch

/-- _build_tree_node: builds the node for a category and recurses into
every category of the fetched set whose parent_id points at it.  The
Python recursion carries no depth bound; fuel is the embedding of
general recursion and get_category_tree passes enough that it is never
exhausted when primary keys are distinct (proved below). -/
def build_tree_node (cats : List Category) :
    Nat → Category → Option CategoryTreeNode
  | 0, _ => none
  | fuel + 1, c =>
    match optionAll ((cats.filter (fun k => k.parent_id == some c.id)).map
        (fun k => build_tree_node cats fuel k)) with
    | some ch => some (categoryTreeNode c ch)
    | none => none

/-- get_category_tree: fetch the visible categories, then build a tree
from every root (parent_id NULL). -/
def get_category_tree (cats : List Category) (user_id : Nat)
    (ty : Option CategoryType) : Option (List CategoryTreeNode) :=
  let visible := get_categories_for_tree cats user_id ty
  optionAll ((visible.filter (fun c => c.parent_id == none)).map
    (fun r => build_tree_node visible (visible.length + 1) r))

/-! ## Ledger posting, modelled from the spec

The repository declares the Transaction and TransactionLine tables but
contains no Ledger service: no code posts transactions, checks the
double-entry invariant or applies balance deltas (the specification
records this gap in its design notes).  The operation below is
therefore modelled from the specification text of §4.2. -/

/-- The debit total (or credit total) of a list of lines, in cents. -/
def sumByLineType (lines : List TransactionLine) (t : LineType) : Int :=
  (lines.map (fun l => if l.type = t then l.amount else 0)).sum

/-- Whether a line type matches an account's normal balance. -/
def lineMatchesNormal : LineType → NormalBalance → Bool
  | .debit, .debit => true
  | .credit, .credit => true
  | _, _ => false

/-- applyDelta(id, signedAmount): adds a signed amount to the balance of
the account with the given id.  Modelled from the spec: called only by
the Ledger inside the posting transaction boundary. -/
def applyDelta (accounts : List Account) (aid : Nat) (delta : Int) :
    List Account :=
  accounts.map (fun a =>
    if a.id == aid then { a with balance := a.balance + delta } else a)

/-- The signed delta of one line against its account per §4.2:
+amount when the line type matches the account's normal balance,
-amount otherwise. -/
def lineDelta (a : Account) (l : TransactionLine) : Int :=
  if lineMatchesNormal l.type a.normal_balance then l.amount else -l.amount

/-- Modelled from the spec: Ledger.post (§4.2) is absent from the source.
Validates, in the order the spec lists them, that every line resolves to
an account of the posting user, that every such account is active, that
debits equal credits exactly, and that there are at least two lines;
only then applies every line's balance delta.  An error therefore leaves
every balance at its prior value. -/
def ledger_post (accounts : List Account) (user_id : Nat)
    (lines : List TransactionLine) : Except ApiError (List Account) :=
  if lines.any (fun l => (get_account_by_id accounts l.account_id user_id).isNone)
  then .error .invalidAccountReference
  else if lines.any (fun l =>
      match get_account_by_id accounts l.account_id user_id with
      | some a => !a.is_active
      | none => true) then .error .inactiveAccount
  else if sumByLineType lines .debit ≠ sumByLineType lines .credit then
    .error .unbalancedTransaction
  else if lines.length < 2 then .error .tooFewLines
  else
    .ok (lines.foldl (fun st l =>
      match get_account_by_id st l.account_id user_id with
      | some a => applyDelta st l.account_id (lineDelta a l)
      | none => st) accounts)

/-! ## Recurring schedule advance, modelled from the spec

The repository declares the Recurring and RecurringLine tables but
contains no generator: nothing ticks templates or advances next_date.
The schedule-advance transition below is modelled from the
specification text of §4.4 (the pure transition of §9), without the
transaction-generation side. -/

inductive Frequency where
  | daily | weekly | monthly | yearly
  deriving DecidableEq, Repr

/-- A calendar date; month is 1-12 and day 1-31 on meaningful values. -/
structure Date where
  year : Nat
  month : Nat
  day : Nat
  deriving DecidableEq, Repr

/-- Leap year per the Gregorian rule. -/
def isLeapYear (y : Nat) : Bool :=
  y % 4 == 0 && (y % 100 != 0 || y % 400 == 0)

/-- Days in a month of a year. -/
def daysInMonth (y m : Nat) : Nat :=
  if m == 2 then (if isLeapYear y then 29 else 28)
  else if m == 4 || m == 6 || m == 9 || m == 11 then 30
  else 31

/-- The day after a date. -/
def nextDay (d : Date) : Date :=
  if d.day < daysInMonth d.year d.month then ⟨d.year, d.month, d.day + 1⟩
  else if d.month < 12 then ⟨d.year, d.month + 1, 1⟩
  else ⟨d.year + 1, 1, 1⟩

/-- Adding n days. -/
def addDays (d : Date) (n : Nat) : Date := Nat.iterate nextDay n d

/-- Modelled from the spec: +k calendar months, clamping the day of month
to the target month's last day (§4.4). -/
def addMonthsClamped (d : Date) (k : Nat) : Date :=
  let months := d.year * 12 + (d.month - 1) + k
  let y := months / 12
  let m := months % 12 + 1
  ⟨y, m, if d.day ≤ daysInMonth y m then d.day else daysInMonth y m⟩

/-- Lexicographic order on dates. -/
def dateLe (a b : Date) : Bool :=
  a.year < b.year || (a.year == b.year &&
    (a.month < b.month || (a.month == b.month && a.day ≤ b.day)))

/-- The recurring template row, restricted to the schedule fields the
transition reads and writes. -/
structure Recurring where
  id : Nat
  user_id : Nat
  name : String
  frequency : Frequency
  interval : Nat
  start_date : Date
  end_date : Option Date
  next_date : Option Date
  last_date : Option Date
  is_active : Bool
  deriving DecidableEq, Repr

/-- next_date advanced by interval units of frequency (§4.4). -/
def advanceDate (freq : Frequency) (interval : Nat) (d : Date) : Date :=
  match freq with
  | .daily => addDays d interval
  | .weekly => addDays d (interval * 7)
  | .monthly => addMonthsClamped d interval
  | .yearly => addMonthsClamped d (interval * 12)

/-- Modelled from the spec: the schedule transition of one tick on one
template (§4.4, §9).  A template that is active and due (next_date not
after asOf) records last_date = next_date and advances next_date;
when the advanced next_date passes end_date the template goes inactive.
A template that is inactive or not due is unchanged. -/
def tickTemplate (t : Recurring) (asOf : Date) : Recurring :=
  match t.next_date with
  | none => t
  | some nd =>
    if t.is_active && dateLe nd asOf then
      let advanced := advanceDate t.frequency t.interval nd
      { t with
        last_date := some nd,
        next_date := some advanced,
        is_active := match t.end_date with
          | some e => dateLe advanced e
          | none => true }
    else t

/-! ## Vocabulary for the theorems -/

/-- j parent-link steps upward from a category id, defined (some) only
when every intermediate category exists and has a parent.
stepsUp j d = some x states that x is the j-th ancestor of d, so d is a
descendant of x at distance j. -/
def stepsUp (cats : List Category) : Nat → Nat → Option Nat
  | 0, i => some i
  | j + 1, i =>
    match session_get_category cats i with
    | none => none
    | some c =>
      match c.parent_id with
      | none => none
      | some p => stepsUp cats j p

/-- An upward parent chain inside the fetched category set: the list
starts at a node, each element's parent_id points at the next, and the
last element is a root.  Used to measure the recursion depth of
build_tree_node. -/
inductive AncChain (cs : List Category) : List Category → Prop
  | root (c : Category) (hc : c ∈ cs) (hp : c.parent_id = none) :
      AncChain cs [c]
  | step (c p : Category) (rest : List Category) (hc : c ∈ cs)
      (hp : c.parent_id = some p.id) (h : AncChain cs (p :: rest)) :
      AncChain cs (c :: p :: rest)

mutual
/-- Height of a built tree node: 1 plus the height of its forest. -/
def categoryTreeDepth : CategoryTreeNode → Nat
  | ⟨_, _, _, _, _, _, ch⟩ => 1 + categoryForestDepth ch

/-- Height of a built forest: the maximum height of its trees. -/
def categoryForestDepth : List CategoryTreeNode → Nat
  | [] => 0
  | t :: ts => max (categoryTreeDepth t) (categoryForestDepth ts)
end

/-! ## Concrete states used by counterexamples and witnesses -/

/-- Two accounts of user 1: account 2 is a child of account 1. -/
def twoLevelAccounts : List Account :=
  [⟨1, 1, "1000", "Assets", .asset, none, .debit, none, true, none, 0⟩,
   ⟨2, 1, "1100", "Current Assets", .asset, none, .debit, none, true, some 1, 0⟩]

/-- The reparent request that makes account 1 a child of its own child. -/
def reparentToChild : AccountUpdate := { parent_id := some (some 2) }

/-- A root with two children whose codes are stored out of ascending
order (the child with code 1200 was inserted before the one with 1100). -/
def unorderedChildrenAccounts : List Account :=
  [⟨1, 1, "1000", "Assets", .asset, none, .debit, none, true, none, 0⟩,
   ⟨2, 1, "1200", "Receivables", .asset, none, .debit, none, true, some 1, 0⟩,
   ⟨3, 1, "1100", "Cash", .asset, none, .debit, none, true, some 1, 0⟩]

/-- One account of user 1 with no children. -/
def oneCashAccount : List Account :=
  [⟨1, 1, "1110", "Cash", .asset, none, .debit, none, true, none, 0⟩]

/-- A transaction line that references account 1. -/
def oneLineOnCash : List TransactionLine := [⟨1, 1, 1, .debit, 10000⟩]

/-- A Debit-normal Cash account and a Credit-normal Salary Income
account, both of user 1. -/
def cashAndSalaryAccounts : List Account :=
  [⟨1, 1, "1110", "Cash", .asset, none, .debit, none, true, none, 0⟩,
   ⟨2, 1, "4100", "Salary Income", .revenue, none, .credit, none, true, none, 0⟩]

/-- Debit 500.00 to Cash against Credit 400.00 to Salary Income. -/
def unbalancedLines : List TransactionLine :=
  [⟨1, 1, 1, .debit, 50000⟩, ⟨2, 1, 2, .credit, 40000⟩]

/-- Category 1 (root) with child category 2, both of user 1. -/
def twoLevelCats : List Category :=
  [⟨1, 1, "Food", .expense, none, none, none⟩,
   ⟨2, 1, "Groceries", .expense, none, none, some 1⟩]

/-- Categories of user 1 whose parent edges contain a two-cycle between
ids 2 and 3 (malformed data unreachable from the root). -/
def cyclicCats : List Category :=
  [⟨1, 1, "Food", .expense, none, none, none⟩,
   ⟨2, 1, "Loop A", .expense, none, none, some 3⟩,
   ⟨3, 1, "Loop B", .expense, none, none, some 2⟩]

/-- A single parent chain of 102 categories of user 1: category i has
parent i - 1 and category 0 is the root.  Every name is equal so the
ORDER BY name fetch keeps insertion order. -/
def deepChainCats : List Category :=
  (List.range 102).map (fun i =>
    ⟨i, 1, "c", .expense, none, none, if i = 0 then none else some (i - 1)⟩)

/-- A monthly template of user 1 due on 2024-01-31. -/
def monthEndTemplate : Recurring :=
  ⟨7, 1, "rent", .monthly, 1, ⟨2024, 1, 31⟩, none, some ⟨2024, 1, 31⟩, none, true⟩

/-- A single account owned by user 2. -/
def foreignAccounts : List Account :=
  [⟨9, 2, "9000", "Other Cash", .asset, none, .debit, none, true, none, 0⟩]

/-- A create request of user 1 naming user 2's account as parent. -/
def foreignParentCreate : AccountCreate :=
  ⟨"1000", "Assets", .asset, none, .debit, none, true, some 9⟩

/-- An expense root and an income root, both of user 1. -/
def mixedTypeCats : List Category :=
  [⟨1, 1, "Food", .expense, none, none, none⟩,
   ⟨2, 1, "Salary", .income, none, none, none⟩]

/-- The parent validation of create_category succeeded: either no parent
was requested, or the parent resolves, belongs to the user and has the
same type as the request. -/
def createParentOk (cats : List Category) (data : CategoryCreate)
    (user_id : Nat) : Prop :=
  data.parent_id = none ∨
  ∃ p parent, data.parent_id = some p ∧
    session_get_category cats p = some parent ∧
    parent.user_id = user_id ∧ parent.type = data.type

/-! ## Helper lemmas -/

theorem charListLe_total : ∀ as bs,
    charListLe as bs = true ∨ charListLe bs as = true := by
  intro as
  induction as with
  | nil => intro bs; left; rfl
  | cons a atl ih =>
    intro bs
    cases bs with
    | nil => right; rfl
    | cons b btl =>
      by_cases h1 : a.toNat < b.toNat
      · left; simp [charListLe, h1]
      · by_cases h2 : b.toNat < a.toNat
        · right; simp [charListLe, h1, h2]
        · rcases ih btl with h | h
          · left; simp [charListLe, h1, h2, h]
          · right; simp [charListLe, h1, h2, h]

theorem charListLe_trans : ∀ as bs cs, charListLe as bs = true →
    charListLe bs cs = true → charListLe as cs = true := by
  intro as
  induction as with
  | nil => intro bs cs h1 h2; rfl
  | cons a atl ih =>
    intro bs cs h1 h2
    cases bs with
    | nil => exact absurd h1 (by simp [charListLe])
    | cons b btl =>
      cases cs with
      | nil => exact absurd h2 (by simp [charListLe])
      | cons c ctl =>
        simp only [charListLe] at h1 h2 ⊢
        split at h1
        · rename_i hab
          split at h2
          · rename_i hbc
            rw [if_pos (by omega)]
          · split at h2
            · exact absurd h2 (by simp)
            · rename_i hbc1 hbc2
              rw [if_pos (by omega)]
        · split at h1
          · exact absurd h1 (by simp)
          · rename_i hab1 hab2
            split at h2
            · rename_i hbc
              rw [if_pos (by omega)]
            · split at h2
              · exact absurd h2 (by simp)
              · rename_i hbc1 hbc2
                rw [if_neg (by omega), if_neg (by omega)]
                exact ih btl ctl h1 h2

theorem strLe_total (a b : String) : strLe a b = true ∨ strLe b a = true :=
  charListLe_total a.data b.data

theorem strLe_trans {a b c : String} (h1 : strLe a b = true)
    (h2 : strLe b c = true) : strLe a c = true :=
  charListLe_trans a.data b.data c.data h1 h2

theorem perm_insertByKey (key : α → String) (x : α) (l : List α) :
    List.Perm (insertByKey key x l) (x :: l) := by
  induction l with
  | nil => simp [insertByKey]
  | cons y ys ih =>
    by_cases h : strLe (key x) (key y) = true
    · simp [insertByKey, h]
    · simp only [insertByKey, if_neg h]
      exact (ih.cons y).trans (List.Perm.swap x y ys)

theorem perm_sortByKey (key : α → String) (l : List α) :
    List.Perm (sortByKey key l) l := by
  induction l with
  | nil => simp [sortByKey]
  | cons x xs ih =>
    exact (perm_insertByKey key x (sortByKey key xs)).trans (ih.cons x)

theorem mem_sortByKey (key : α → String) (l : List α) (a : α) :
    a ∈ sortByKey key l ↔ a ∈ l :=
  (perm_sortByKey key l).mem_iff

theorem mem_insertByKey (key : α → String) (x a : α) (l : List α) :
    a ∈ insertByKey key x l ↔ a = x ∨ a ∈ l := by
  rw [(perm_insertByKey key x l).mem_iff, List.mem_cons]

theorem pairwise_insertByKey (key : α → String) (x : α) (l : List α)
    (h : l.Pairwise (fun a b => strLe (key a) (key b) = true)) :
    (insertByKey key x l).Pairwise
      (fun a b => strLe (key a) (key b) = true) := by
  induction l with
  | nil => simp [insertByKey]
  | cons y ys ih =>
    rcases List.pairwise_cons.mp h with ⟨hy, hys⟩
    by_cases hle : strLe (key x) (key y) = true
    · rw [insertByKey, if_pos hle]
      refine List.pairwise_cons.mpr ⟨?_, h⟩
      intro z hz
      rcases List.mem_cons.mp hz with rfl | hz
      · exact hle
      · exact strLe_trans hle (hy z hz)
    · rw [insertByKey, if_neg hle]
      refine List.pairwise_cons.mpr ⟨?_, ih hys⟩
      intro z hz
      rcases (mem_insertByKey key x z ys).mp hz with heq | hz
      · rw [heq]
        exact (strLe_total (key x) (key y)).resolve_left hle
      · exact hy z hz

theorem pairwise_sortByKey (key : α → String) (l : List α) :
    (sortByKey key l).Pairwise (fun a b => strLe (key a) (key b) = true) := by
  induction l with
  | nil => simp [sortByKey]
  | cons x xs ih => exact pairwise_insertByKey key x (sortByKey key xs) ih

/-- The setattr loop cannot touch balance: it is not an AccountUpdate
field. -/
theorem applyAccountUpdate_balance (a : Account) (u : AccountUpdate) :
    (applyAccountUpdate a u).balance = a.balance := rfl

theorem applyAccountUpdate_id (a : Account) (u : AccountUpdate) :
    (applyAccountUpdate a u).id = a.id := rfl

/-- Members of a list whose mapped ids are duplicate-free are determined
by their id. -/
theorem eq_of_mem_of_id_eq {l : List Account}
    (hnodup : (l.map (fun x => x.id)).Nodup) {a b : Account}
    (ha : a ∈ l) (hb : b ∈ l) (hid : a.id = b.id) : a = b :=
  List.inj_on_of_nodup_map hnodup ha hb hid

/-- Replacing the matched row by its updated version keeps every id and
every balance. -/
theorem store_map_id_balance (accounts : List Account) (account : Account)
    (u : AccountUpdate) :
    (accounts.map (fun a =>
        if a.id == account.id then applyAccountUpdate a u else a)).map
      (fun a => (a.id, a.balance)) =
    accounts.map (fun a => (a.id, a.balance)) := by
  rw [List.map_map]
  refine List.map_congr_left ?_
  intro a _
  by_cases h : a.id = account.id
  · simp [h, applyAccountUpdate_balance, applyAccountUpdate_id]
  · simp [h]

/-! ## Claim theorems -/

/-- Claim C4: Account Directory operations never change a balance:
create inserts the new row with the table default balance 0.00 and
leaves every other row untouched, update (reparenting included) leaves
the id-to-balance map of the table unchanged because balance is not an
AccountUpdate field, and delete only removes rows.  Only the
spec-modelled ledger_post writes balances. -/
theorem c4_account_directory_balance_frame
    (accounts accounts2 : List Account) (account_id user_id new_id : Nat)
    (data : AccountCreate) (u : AccountUpdate) (tx : List TransactionLine) :
    (create_account accounts data user_id new_id = .ok accounts2 →
      accounts2.map (fun a => (a.id, a.balance)) =
        accounts.map (fun a => (a.id, a.balance)) ++ [(new_id, 0)])
    ∧ (update_account accounts account_id u user_id = .ok accounts2 →
      accounts2.map (fun a => (a.id, a.balance)) =
        accounts.map (fun a => (a.id, a.balance)))
    ∧ (delete_account accounts tx account_id user_id = .ok accounts2 →
      ∀ a ∈ accounts2, a ∈ accounts) := by
  refine ⟨?_, ?_, ?_⟩
  · intro h
    unfold create_account at h
    split at h
    · exact absurd h (by simp)
    · split at h
      · split at h
        · exact absurd h (by simp)
        · cases h with
          | refl => simp [createdAccountRow]
      · cases h with
        | refl => simp [createdAccountRow]
  · intro h
    unfold update_account at h
    split at h
    · exact absurd h (by simp)
    · rename_i account heq
      split at h
      · exact absurd h (by simp)
      · split at h
        · split at h
          · split at h
            · exact absurd h (by simp)
            · split at h
              · exact absurd h (by simp)
              · cases h with
                | refl => exact store_map_id_balance accounts account u
          · cases h with
            | refl => exact store_map_id_balance accounts account u
        · cases h with
          | refl => exact store_map_id_balance accounts account u
  · intro h
    unfold delete_account at h
    split at h
    · exact absurd h (by simp)
    · split at h
      · exact absurd h (by simp)
      · cases h with
        | refl => exact fun a ha => List.mem_of_mem_filter ha

/-- Claim C4 witness: a concrete create adds a zero-balance row. -/
theorem c4_account_directory_balance_frame_witness :
    (oneCashAccount ++
        [createdAccountRow ⟨"4100", "Salary", .revenue, none, .credit,
          none, true, none⟩ 1 2]).map (fun a => (a.id, a.balance)) =
      oneCashAccount.map (fun a => (a.id, a.balance)) ++ [(2, 0)] :=
  (c4_account_directory_balance_frame oneCashAccount
    (oneCashAccount ++ [createdAccountRow ⟨"4100", "Salary", .revenue,
      none, .credit, none, true, none⟩ 1 2]) 1 1 2
    ⟨"4100", "Salary", .revenue, none, .credit, none, true, none⟩
    {} []).1 rfl

/-- Claim C5 (code bug): an account with no children but a referencing
transaction line is deleted anyway, because the transactions check of
delete_account is commented out behind a TODO in the source even though
the TransactionLine model exists and the route documentation promises
the check. -/
theorem c5_delete_ignores_transaction_lines :
    delete_account oneCashAccount oneLineOnCash 1 1 = .ok [] := rfl

/-- Claim C7: an update that sets a node as its own parent fails with
SelfParent and mutates nothing, for accounts (whenever the stored
parent is not already the node itself, a state no operation can create,
and no duplicate-code rejection fires first) and for categories
(unconditionally once the node is found and owned). -/
theorem c7_reparent_self_fails
    (accounts : List Account) (cats : List Category)
    (account_id user_id cid cuser : Nat) (a : Account) (c : Category)
    (u : AccountUpdate) (cu : CategoryUpdate)
    (ha : get_account_by_id accounts account_id user_id = some a)
    (hap : a.parent_id ≠ some a.id)
    (hcode : codeConflict accounts a u user_id = false)
    (hup : u.parent_id = some (some account_id))
    (hc : get_category cats cid cuser = .ok c)
    (hcup : cu.parent_id = some (some cid)) :
    update_account accounts account_id u user_id = .error .selfParent
    ∧ update_category cats cid cu cuser = .error .selfParent := by
  have haid : a.id = account_id := by
    have := List.find?_some ha
    simp only [Bool.and_eq_true, beq_iff_eq] at this
    exact this.1
  constructor
  · unfold update_account
    rw [ha]
    simp only [hcode, Bool.false_eq_true, if_false, hup]
    have hne : some account_id ≠ a.parent_id := by
      rw [← haid]
      exact fun hcontra => hap hcontra.symm
    rw [if_pos hne, if_pos (by simp [haid])]
  · unfold update_category
    rw [hc]
    simp only [hcup]
    rw [if_pos (by simp)]

/-- Claim C7 witness: concrete self-parent updates on a stored account
and category fail with SelfParent. -/
theorem c7_reparent_self_fails_witness :
    update_account twoLevelAccounts 1 { parent_id := some (some 1) } 1 =
      .error .selfParent
    ∧ update_category twoLevelCats 1 { parent_id := some (some 1) } 1 =
      .error .selfParent :=
  c7_reparent_self_fails twoLevelAccounts twoLevelCats 1 1 1 1
    ⟨1, 1, "1000", "Assets", .asset, none, .debit, none, true, none, 0⟩
    ⟨1, 1, "Food", .expense, none, none, none⟩
    { parent_id := some (some 1) } { parent_id := some (some 1) }
    rfl (by decide) rfl rfl rfl rfl

/-- When the walk target sits j parent steps above the start and j is
below the remaining fuel, the circular walk reports true. -/
theorem circularWalk_detects (cats : List Category) (target : Nat) :
    ∀ j cur fuel, j < fuel → stepsUp cats j cur = some target →
      circularWalk cats target (some cur) fuel = true := by
  intro j
  induction j with
  | zero =>
    intro cur fuel hf hs
    have hcur : cur = target := by simpa [stepsUp] using hs
    match fuel, hf with
    | f + 1, _ => simp [circularWalk, hcur]
  | succ j ih =>
    intro cur fuel hf hs
    unfold stepsUp at hs
    match hget : session_get_category cats cur with
    | none => rw [hget] at hs; exact absurd hs (by simp)
    | some c =>
      rw [hget] at hs
      dsimp only at hs
      match hp : c.parent_id with
      | none => rw [hp] at hs; exact absurd hs (by simp)
      | some p =>
        rw [hp] at hs
        dsimp only at hs
        match fuel, hf with
        | f + 1, hf =>
          unfold circularWalk
          by_cases he : cur == target
          · rw [if_pos he]
          · rw [if_neg he, hget]
            dsimp only
            rw [hp]
            exact ih p f (by omega) hs

/-- Claim C2 (amended): only the Category Directory guards against
descendant reparenting: a category update whose non-null new parent is
a descendant of the category at distance at most 99 parent steps fails
with CycleDetected (the bounded walk visits 100 nodes) and changes
nothing; the Account Directory update performs no ancestor walk, so
reparenting an account onto its own descendant is accepted (see the
counterexample). -/
theorem c2_category_descendant_reparent_rejected
    (cats : List Category) (category_id user_id j d : Nat) (c : Category)
    (cu : CategoryUpdate)
    (hc : get_category cats category_id user_id = .ok c)
    (hup : cu.parent_id = some (some d))
    (hne : d ≠ category_id)
    (hj : j ≤ 99)
    (hdesc : stepsUp cats j d = some category_id) :
    update_category cats category_id cu user_id = .error .cycleDetected := by
  unfold update_category
  rw [hc]
  simp only [hup]
  rw [if_neg (by simp [hne])]
  rw [if_pos (show creates_circular_reference cats category_id d = true from
    circularWalk_detects cats category_id j d 100 (by omega) hdesc)]

/-- Claim C2 witness: reparenting category 1 onto its child 2 fails with
CycleDetected. -/
theorem c2_category_descendant_reparent_rejected_witness :
    update_category twoLevelCats 1 { parent_id := some (some 2) } 1 =
      .error .cycleDetected :=
  c2_category_descendant_reparent_rejected twoLevelCats 1 1 1 2
    ⟨1, 1, "Food", .expense, none, none, none⟩
    { parent_id := some (some 2) } rfl rfl (by decide) (by decide) rfl

/-- Claim C2 counterexample: reparenting account 1 onto its own child 2
is accepted and stored, creating a parent cycle; update_account checks
only parent = self and parent existence, never ancestry. -/
theorem c2_account_descendant_reparent_accepted :
    update_account twoLevelAccounts 1 reparentToChild 1 =
      .ok [⟨1, 1, "1000", "Assets", .asset, none, .debit, none, true, some 2, 0⟩,
        ⟨2, 1, "1100", "Current Assets", .asset, none, .debit, none, true,
          some 1, 0⟩] := rfl

/-- Claim C10: account operations are scoped to the calling user: a get,
update or delete that names an account stored for a different user
fails as not-found and mutates nothing, and a create whose parent_id
names a different user's account fails as parent-not-found. -/
theorem c10_account_operations_user_scoped
    (accounts : List Account) (tx : List TransactionLine) (a : Account)
    (aid u new_id pid : Nat) (up : AccountUpdate) (data : AccountCreate)
    (hnodup : (accounts.map (fun x => x.id)).Nodup)
    (ha : a ∈ accounts) (haid : a.id = aid) (hau : a.user_id ≠ u) :
    get_account_by_id accounts aid u = none
    ∧ update_account accounts aid up u = .error .notFound
    ∧ delete_account accounts tx aid u = .error .notFound
    ∧ (data.parent_id = some pid → pid = aid →
        get_account_by_code accounts data.code u = none →
        create_account accounts data u new_id = .error .parentNotFound) := by
  have hnone : get_account_by_id accounts aid u = none := by
    unfold get_account_by_id
    rw [List.find?_eq_none]
    intro b hb
    simp only [Bool.and_eq_true, beq_iff_eq, not_and]
    intro hbid
    have hba : b = a := eq_of_mem_of_id_eq hnodup hb ha (by rw [hbid, haid])
    rw [hba]
    exact hau
  refine ⟨hnone, ?_, ?_, ?_⟩
  · unfold update_account
    rw [hnone]
  · unfold delete_account
    rw [hnone]
  · intro hpid hpidaid hcode
    unfold create_account
    rw [hcode]
    simp only [Option.isSome_none, Bool.false_eq_true, if_false, hpid]
    rw [if_pos (by rw [hpidaid, hnone]; rfl)]

/-- Claim C10 witness: user 1 cannot read, update or delete user 2's
account 9, and cannot create an account under it. -/
theorem c10_account_operations_user_scoped_witness :
    get_account_by_id foreignAccounts 9 1 = none
    ∧ update_account foreignAccounts 9 {} 1 = .error .notFound
    ∧ delete_account foreignAccounts [] 9 1 = .error .notFound
    ∧ create_account foreignAccounts foreignParentCreate 1 5 =
        .error .parentNotFound := by
  have h := c10_account_operations_user_scoped foreignAccounts []
    ⟨9, 2, "9000", "Other Cash", .asset, none, .debit, none, true, none, 0⟩
    9 1 5 9 {} foreignParentCreate (by decide) (by decide) rfl (by decide)
  exact ⟨h.1, h.2.1, h.2.2.1, h.2.2.2 rfl rfl rfl⟩

/-- Claim C1 (spec-modelled: the repository has no Ledger service, so
posting is modelled from §4.2): a posting is accepted only when the
debit total equals the credit total exactly, and a line set with a
nonzero remainder whose accounts all resolve and are active is rejected
with UnbalancedTransaction; the error return carries no new table
state, so no balance changes. -/
theorem c1_posting_requires_exact_balance
    (accounts result : List Account) (user_id : Nat)
    (lines : List TransactionLine) :
    (ledger_post accounts user_id lines = .ok result →
      sumByLineType lines .debit = sumByLineType lines .credit)
    ∧ (lines.any (fun l =>
          (get_account_by_id accounts l.account_id user_id).isNone) = false →
       lines.any (fun l =>
          match get_account_by_id accounts l.account_id user_id with
          | some a => !a.is_active
          | none => true) = false →
       sumByLineType lines .debit ≠ sumByLineType lines .credit →
       ledger_post accounts user_id lines = .error .unbalancedTransaction) := by
  constructor
  · intro h
    unfold ledger_post at h
    split at h
    · exact absurd h (by simp)
    · split at h
      · exact absurd h (by simp)
      · split at h
        · exact absurd h (by simp)
        · rename_i hbal
          exact not_ne_iff.mp hbal
  · intro h1 h2 hne
    unfold ledger_post
    rw [h1]
    simp only [Bool.false_eq_true, if_false]
    rw [h2]
    simp only [Bool.false_eq_true, if_false]
    rw [if_pos hne]

/-- Claim C1 witness: Debit 500.00 and Credit 400.00 to two live
accounts of the user is rejected with UnbalancedTransaction. -/
theorem c1_posting_requires_exact_balance_witness :
    ledger_post cashAndSalaryAccounts 1 unbalancedLines =
      .error .unbalancedTransaction :=
  (c1_posting_requires_exact_balance cashAndSalaryAccounts [] 1
    unbalancedLines).2 rfl rfl (by decide)

/-- Claim C3 (spec-modelled: the repository has no recurring generator,
so the schedule transition is modelled from §4.4): one tick on an
active, due template records last_date and advances next_date by
interval units of its frequency, and for the month-based frequencies
the resulting day of month is the requested day clamped to the target
month's length. -/
theorem c3_tick_advances_schedule
    (t : Recurring) (asOf nd : Date)
    (hact : t.is_active = true)
    (hnd : t.next_date = some nd)
    (hdue : dateLe nd asOf = true) :
    (tickTemplate t asOf).next_date =
      some (advanceDate t.frequency t.interval nd)
    ∧ (tickTemplate t asOf).last_date = some nd
    ∧ ((t.frequency = .monthly ∨ t.frequency = .yearly) →
        (advanceDate t.frequency t.interval nd).day =
          min nd.day
            (daysInMonth (advanceDate t.frequency t.interval nd).year
              (advanceDate t.frequency t.interval nd).month)) := by
  have hguard : (t.is_active && dateLe nd asOf) = true := by
    rw [hact, hdue]
    rfl
  unfold tickTemplate
  rw [hnd]
  dsimp only
  rw [if_pos hguard]
  refine ⟨rfl, rfl, ?_⟩
  rintro (hf | hf) <;>
    simp [hf, advanceDate, addMonthsClamped, min_def]

/-- Claim C3 witness: a monthly template with interval 1 and next date
2024-01-31 goes to 2024-02-29 after one tick (leap-year clamping). -/
theorem c3_tick_advances_schedule_witness :
    (tickTemplate monthEndTemplate ⟨2024, 1, 31⟩).next_date =
      some ⟨2024, 2, 29⟩ := by
  have h := (c3_tick_advances_schedule monthEndTemplate ⟨2024, 1, 31⟩
    ⟨2024, 1, 31⟩ rfl rfl (by decide)).1
  rw [h]
  rfl

/-- Claim C6: creating or reparenting a category under a parent of the
other type fails with TypeMismatch; creating a duplicate name under the
same (user, parent) fails with DuplicateName; with a valid same-type
parent (or none) and a fresh name the create succeeds and stores the
row. -/
theorem c6_category_type_and_name_rules :
    (∀ cats (data : CategoryCreate) user_id new_id p parent,
      data.parent_id = some p →
      session_get_category cats p = some parent →
      parent.user_id = user_id →
      parent.type ≠ data.type →
      create_category cats data user_id new_id = .error .typeMismatch)
    ∧ (∀ cats (data : CategoryCreate) user_id new_id,
      createParentOk cats data user_id →
      (cats.find? (fun c => c.user_id == user_id && c.name == data.name
        && c.parent_id == data.parent_id)).isSome = true →
      create_category cats data user_id new_id = .error .duplicateName)
    ∧ (∀ cats (data : CategoryCreate) user_id new_id,
      createParentOk cats data user_id →
      (cats.find? (fun c => c.user_id == user_id && c.name == data.name
        && c.parent_id == data.parent_id)).isSome = false →
      create_category cats data user_id new_id =
        .ok (cats ++ [createdCategoryRow data user_id new_id]))
    ∧ (∀ cats category_id user_id p parent c (cu : CategoryUpdate),
      get_category cats category_id user_id = .ok c →
      cu.parent_id = some (some p) →
      p ≠ category_id →
      creates_circular_reference cats category_id p = false →
      session_get_category cats p = some parent →
      parent.user_id = user_id →
      parent.type ≠ cu.type.getD c.type →
      update_category cats category_id cu user_id = .error .typeMismatch) := by
  refine ⟨?_, ?_, ?_, ?_⟩
  · intro cats data user_id new_id p parent hp hfind howned hty
    unfold create_category
    rw [hp]
    dsimp only
    rw [hfind]
    dsimp only
    rw [if_neg (by simp [howned]), if_pos hty]
  · intro cats data user_id new_id hok hdup
    unfold create_category
    rcases hok with hnone | ⟨p, parent, hp, hfind, howned, hty⟩
    · rw [hnone] at hdup ⊢
      dsimp only
      rw [if_pos hdup]
    · rw [hp] at hdup ⊢
      dsimp only
      rw [hfind]
      dsimp only
      rw [if_neg (by simp [howned]), if_neg (by simp [hty]), if_pos hdup]
  · intro cats data user_id new_id hok hdup
    unfold create_category
    rcases hok with hnone | ⟨p, parent, hp, hfind, howned, hty⟩
    · rw [hnone] at hdup ⊢
      dsimp only
      rw [if_neg (by simp [hdup])]
    · rw [hp] at hdup ⊢
      dsimp only
      rw [hfind]
      dsimp only
      rw [if_neg (by simp [howned]), if_neg (by simp [hty]),
        if_neg (by simp [hdup])]
  · intro cats category_id user_id p parent c cu hc hcup hne hccr hfind howned hty
    unfold update_category
    rw [hc]
    dsimp only
    rw [hcup]
    dsimp only
    rw [if_neg (by simp [hne]), if_neg (by simp [hccr])]
    rw [hfind]
    dsimp only
    rw [if_neg (by simp [howned]), if_pos hty]

/-- Claim C6 witness: concrete type-mismatch create, duplicate-name
create, successful create, and type-mismatch reparent. -/
theorem c6_category_type_and_name_rules_witness :
    create_category mixedTypeCats ⟨"Bonus", .income, none, none, some 1⟩ 1 3 =
      .error .typeMismatch
    ∧ create_category twoLevelCats ⟨"Groceries", .expense, none, none, some 1⟩
        1 3 = .error .duplicateName
    ∧ create_category twoLevelCats ⟨"Dining", .expense, none, none, some 1⟩
        1 3 = .ok (twoLevelCats ++
          [createdCategoryRow ⟨"Dining", .expense, none, none, some 1⟩ 1 3])
    ∧ update_category mixedTypeCats 2 { parent_id := some (some 1) } 1 =
      .error .typeMismatch := by
  have h := c6_category_type_and_name_rules
  exact ⟨h.1 mixedTypeCats _ 1 3 1 ⟨1, 1, "Food", .expense, none, none, none⟩
      rfl rfl rfl (by decide),
    h.2.1 twoLevelCats _ 1 3
      (Or.inr ⟨1, ⟨1, 1, "Food", .expense, none, none, none⟩, rfl, rfl, rfl, rfl⟩)
      (by decide),
    h.2.2.1 twoLevelCats _ 1 3
      (Or.inr ⟨1, ⟨1, 1, "Food", .expense, none, none, none⟩, rfl, rfl, rfl, rfl⟩)
      (by decide),
    h.2.2.2 mixedTypeCats 2 1 1 ⟨1, 1, "Food", .expense, none, none, none⟩
      ⟨2, 1, "Salary", .income, none, none, none⟩ { parent_id := some (some 1) }
      rfl rfl (by decide) (by decide) rfl rfl (by decide)⟩

/-- Claim C8 (amended): the tree endpoint scopes roots to the calling
user and orders the roots by code ascending; the nested children of
each node are the rows whose parent_id points at it, in stored order,
with no code ordering applied (see the counterexample). -/
theorem c8_account_tree_roots_sorted_and_scoped
    (accounts : List Account) (user_id : Nat) :
    (get_account_tree accounts user_id).Pairwise
      (fun a b => strLe a.code b.code = true)
    ∧ ∀ a : Account, a ∈ get_account_tree accounts user_id ↔
        (a ∈ accounts ∧ a.user_id = user_id ∧ a.parent_id = none) := by
  constructor
  · exact pairwise_sortByKey _ _
  · intro a
    unfold get_account_tree
    rw [mem_sortByKey, List.mem_filter]
    simp [and_assoc]

/-- Claim C8 counterexample: with two children stored out of code order,
the endpoint returns the children as 1200 before 1100, so siblings
below the roots are not ordered by code ascending. -/
theorem c8_children_not_code_ordered :
    ((get_account_tree_endpoint unorderedChildrenAccounts 1).getD []).map
      (fun t => t.children.map (fun s => s.code)) = [["1200", "1100"]] := rfl

set_option maxRecDepth 8000 in
/-- Claim C9 counterexample: on a 102-deep parent chain the built tree
has height 102: traversal is not cut off at depth 100 and the nodes
beyond that bound keep their children (the 100 bound exists only inside
creates_circular_reference). -/
theorem c9_no_depth_bound :
    (get_category_tree deepChainCats 1 none).map categoryForestDepth =
      some 102 := rfl

theorem ancChain_subset {cs l : List Category} (h : AncChain cs l) :
    ∀ a ∈ l, a ∈ cs := by
  induction h with
  | root c hc hp =>
    intro a ha
    rw [List.mem_singleton.mp ha]
    exact hc
  | step c p rest hc hp hch ih =>
    intro a ha
    rcases List.mem_cons.mp ha with heq | ha2
    · rw [heq]; exact hc
    · exact ih a ha2

theorem ancChain_suffix {cs l : List Category} (h : AncChain cs l)
    {d : Category} (hd : d ∈ l) :
    ∃ l1 l2, l = l1 ++ d :: l2 ∧ AncChain cs (d :: l2) := by
  induction h with
  | root c hc hp =>
    obtain rfl := List.mem_singleton.mp hd
    exact ⟨[], [], rfl, AncChain.root d hc hp⟩
  | step c p rest hc hp hch ih =>
    rcases List.mem_cons.mp hd with heq | hd2
    · subst heq
      exact ⟨[], p :: rest, rfl, AncChain.step d p rest hc hp hch⟩
    · obtain ⟨l1, l2, heq, hch2⟩ := ih hd2
      exact ⟨c :: l1, l2, by rw [List.cons_append, heq], hch2⟩

/-- A node of the fetched set whose parent is the head of an upward
chain cannot itself occur in the chain: parent links are unique, so the
walk from a root downward never revisits a node. -/
theorem ancChain_no_reentry {cs : List Category}
    (hnodup : (cs.map (fun x => x.id)).Nodup)
    {c : Category} {rest : List Category}
    (hchain : AncChain cs (c :: rest))
    (hnd : ((c :: rest).map (fun x => x.id)).Nodup)
    {d : Category} (hd : d ∈ cs) (hdp : d.parent_id = some c.id) :
    d.id ∉ (c :: rest).map (fun x => x.id) := by
  intro hmem
  obtain ⟨e, he, heid⟩ := List.mem_map.mp hmem
  have hecs : e ∈ cs := ancChain_subset hchain e he
  obtain rfl : e = d := List.inj_on_of_nodup_map hnodup hecs hd heid
  obtain ⟨l1, l2, heq, hch2⟩ := ancChain_suffix hchain he
  have hhead : c.id ∉ rest.map (fun x => x.id) := (List.nodup_cons.mp hnd).1
  cases hch2 with
  | root _ hc2 hp2 =>
    rw [hdp] at hp2
    cases hp2
  | step _ q l2b hc2 hp2 hch3 =>
    have hqc : q.id = c.id := by
      rw [hdp] at hp2
      exact (Option.some.inj hp2).symm
    cases l1 with
    | nil =>
      simp only [List.nil_append, List.cons.injEq] at heq
      apply hhead
      exact List.mem_map.mpr ⟨q, by rw [heq.2]; exact List.mem_cons_self q l2b, hqc⟩
    | cons x l1b =>
      simp only [List.cons_append, List.cons.injEq] at heq
      apply hhead
      refine List.mem_map.mpr ⟨q, ?_, hqc⟩
      rw [heq.2]
      exact List.mem_append_right l1b
        (List.mem_cons_of_mem e (List.mem_cons_self q l2b))

theorem optionAll_isSome {A : Type} {l : List (Option A)}
    (h : ∀ x ∈ l, x.isSome = true) : (optionAll l).isSome = true := by
  induction l with
  | nil => rfl
  | cons x rest ih =>
    have hx := h x (List.mem_cons_self x rest)
    have hrest := ih (fun y hy => h y (List.mem_cons_of_mem x hy))
    cases x with
    | none => exact absurd hx (by simp)
    | some v =>
      rw [optionAll]
      cases hall : optionAll rest with
      | none => rw [hall] at hrest; exact absurd hrest (by simp)
      | some xs => rfl

/-- Enough fuel: when a node sits at the bottom of a duplicate-free
upward chain and the fuel plus the chain length exceeds the table size,
the build of that node succeeds.  The chain can never exceed the table
size, so fuel = table size + 1 always suffices. -/
theorem build_tree_node_isSome (cs : List Category)
    (hnodup : (cs.map (fun x => x.id)).Nodup) :
    ∀ fuel (c : Category) (chain : List Category),
      AncChain cs (c :: chain) →
      ((c :: chain).map (fun x => x.id)).Nodup →
      cs.length < fuel + (c :: chain).length →
      (build_tree_node cs fuel c).isSome = true := by
  intro fuel
  induction fuel with
  | zero =>
    intro c chain hchain hnd hlen
    exfalso
    have hsub : (c :: chain).map (fun x => x.id) ⊆ cs.map (fun x => x.id) := by
      intro i hi
      obtain ⟨a, ha, rfl⟩ := List.mem_map.mp hi
      exact List.mem_map.mpr ⟨a, ancChain_subset hchain a ha, rfl⟩
    have hle := (hnd.subperm hsub).length_le
    simp only [List.length_map, List.length_cons] at hle
    simp only [List.length_cons] at hlen
    omega
  | succ fuel ih =>
    intro c chain hchain hnd hlen
    rw [build_tree_node]
    have hch : ∀ o ∈ (cs.filter (fun k => k.parent_id == some c.id)).map
        (fun k => build_tree_node cs fuel k), o.isSome = true := by
      intro o ho
      obtain ⟨d, hd, rfl⟩ := List.mem_map.mp ho
      have hdcs : d ∈ cs := List.mem_of_mem_filter hd
      have hdp : d.parent_id = some c.id := by
        have := List.of_mem_filter hd
        simpa using this
      have hnotin := ancChain_no_reentry hnodup hchain hnd hdcs hdp
      refine ih d (c :: chain)
        (AncChain.step d c chain hdcs hdp hchain)
        (List.nodup_cons.mpr ⟨hnotin, hnd⟩) ?_
      simp only [List.length_cons] at hlen ⊢
      omega
    have hsome := optionAll_isSome hch
    cases hall : optionAll ((cs.filter (fun k => k.parent_id == some c.id)).map
        (fun k => build_tree_node cs fuel k)) with
    | none => rw [hall] at hsome; exact absurd hsome (by simp)
    | some ch => rfl

/-- Claim C9 (amended): category tree building terminates on every
stored state whose primary keys are distinct, including malformed data
whose parent edges contain a cycle, because a node inside a cycle is
never reachable from a root (parent links are unique, so downward paths
from roots are duplicate-free and bounded by the table size).  The
build itself carries no depth bound: the 100 bound exists only in
creates_circular_reference, and nodes deeper than 100 keep their
children (see the counterexample). -/
theorem c9_category_tree_terminates
    (cats : List Category) (user_id : Nat) (ty : Option CategoryType)
    (hnodup : (cats.map (fun c => c.id)).Nodup) :
    (get_category_tree cats user_id ty).isSome = true := by
  have hvn : ((get_categories_for_tree cats user_id ty).map
      (fun c => c.id)).Nodup := by
    unfold get_categories_for_tree
    have hperm := (perm_sortByKey (fun c : Category => c.name)
      (cats.filter (fun c => c.user_id == user_id &&
        (match ty with | some t => c.type == t | none => true)))).map
      (fun c : Category => c.id)
    refine hperm.nodup_iff.mpr ?_
    exact ((List.filter_sublist cats).map (fun c : Category => c.id)).nodup
      hnodup
  unfold get_category_tree
  apply optionAll_isSome
  intro o ho
  obtain ⟨r, hr, rfl⟩ := List.mem_map.mp ho
  have hrv : r ∈ get_categories_for_tree cats user_id ty :=
    List.mem_of_mem_filter hr
  have hrp : r.parent_id = none := by
    have := List.of_mem_filter hr
    simpa using this
  exact build_tree_node_isSome (get_categories_for_tree cats user_id ty) hvn
    ((get_categories_for_tree cats user_id ty).length + 1) r []
    (AncChain.root r hrv hrp) (by simp)
    (by simp only [List.length_cons, List.length_nil]; omega)

/-- Claim C9 witness: tree building succeeds on a state whose parent
edges contain a two-cycle. -/
theorem c9_category_tree_terminates_witness :
    (cyclicCats.map (fun c => c.id)).Nodup ∧
      (get_category_tree cyclicCats 1 none).isSome = true :=
  ⟨by decide, c9_category_tree_terminates cyclicCats 1 none (by decide)⟩

end Kanemono
